import Mathlib

/-!
Verification of the POS-tagging SRN notebook (`src/POS_RNN-Copy1.ipynb`).

The notebook's custom code is shallowly embedded here:
* tensors become nested lists of rationals (`List ℚ`, `List (List ℚ)`, ...)
  for float tensors and nested lists of integers for label tensors;
* `torch.nn.Linear` becomes an explicit weight matrix with an optional bias;
* the arbitrary activation callables passed to the constructors become
  function-valued fields;
* module-level (global) Python state that a function reads is passed as an
  explicit argument (`Option` marks a possibly-deleted global name, whose
  absence raises `NameError`);
* nondeterministic library internals (the fresh randomly initialised layers
  that `fastSRN.forward` constructs on every call) become explicit
  arguments holding the sampled weights;
* a function body that is a bare `NotImplemented` expression statement is
  run by a tiny statement interpreter, so that "evaluates the constant,
  changes no state, returns `None`" is a provable property rather than a
  modelling assumption;
* the `while` loop of `mySRN.forward` is run on fuel, with a three-valued
  outcome separating normal return, an uncaught exception, and fuel
  exhaustion (non-termination within the given fuel).
-/

/-- Python runtime values, restricted to what the notebook's placeholder
cells can produce or be compared against. -/
inductive PyVal where
  | none : PyVal
  | notImplemented : PyVal
  | int : ℤ → PyVal
  | tensor2Q : List (List ℚ) → PyVal
  | tensor2Z : List (List ℤ) → PyVal
  | tensor3Q : List (List (List ℚ)) → PyVal
  | tuple : PyVal → PyVal → PyVal
  deriving DecidableEq

/-- Expressions occurring in the unfinished placeholder bodies: only the
constant `NotImplemented` appears. -/
inductive PyExpr where
  | constNotImplemented : PyExpr
  deriving DecidableEq

/-- Statements occurring in the unfinished placeholder bodies: a bare
expression statement, which evaluates its expression and discards the
result. -/
inductive PyStmt where
  | exprStmt : PyExpr → PyStmt
  deriving DecidableEq

/-- Evaluating a placeholder expression: `NotImplemented` is a constant, so
evaluation touches no state. -/
def evalPyExpr : PyExpr → PyVal
  | PyExpr.constNotImplemented => PyVal.notImplemented

/-- Run a function body made of the statements above over an ambient state
of type `σ`. A bare expression statement evaluates its expression (with no
effect on the state) and discards the value; a body that falls off its end
makes the Python call return `None`. -/
def runBody {σ : Type} : List PyStmt → σ → σ × PyVal
  | [], env => (env, PyVal.none)
  | PyStmt.exprStmt e :: rest, env =>
      let _ := evalPyExpr e
      runBody rest env

/-- The body shared by every unfinished cell: the single expression
statement `NotImplemented`. -/
def notImplementedBody : List PyStmt :=
  [PyStmt.exprStmt PyExpr.constNotImplemented]

/-- `UnevenLengthDataset.__init__(self, X, Y)`: body is `NotImplemented`. -/
def UnevenLengthDataset.init {σ : Type} (X : List (List (List ℚ)))
    (Y : List (List ℤ)) (env : σ) : σ × PyVal :=
  let _ := X
  let _ := Y
  runBody notImplementedBody env

/-- `UnevenLengthDataset.__len__(self)`: body is `NotImplemented`. -/
def UnevenLengthDataset.len {σ : Type} (env : σ) : σ × PyVal :=
  runBody notImplementedBody env

/-- `UnevenLengthDataset.__getitem__(self, idx)`: body is
`NotImplemented`. -/
def UnevenLengthDataset.getitem {σ : Type} (idx : ℤ) (env : σ) : σ × PyVal :=
  let _ := idx
  runBody notImplementedBody env

/-- `pad_batch(batch)`: body is a comment followed by `NotImplemented`. -/
def pad_batch {σ : Type} (batch : List (List (List ℚ) × List ℤ))
    (env : σ) : σ × PyVal :=
  let _ := batch
  runBody notImplementedBody env

/-- `train_batch(network, X_batch, Y_batch, loss_fn, optimizer)`: body is
`NotImplemented`. -/
def train_batch {σ net loss opt : Type} (network : net)
    (X_batch : List (List (List ℚ))) (Y_batch : List (List ℤ))
    (loss_fn : loss) (optimizer : opt) (env : σ) : σ × PyVal :=
  let _ := network
  let _ := X_batch
  let _ := Y_batch
  let _ := loss_fn
  let _ := optimizer
  runBody notImplementedBody env

/-- `train_epoch(network, dataloader, loss_fn, optimizer, device)`: body is
`NotImplemented`. -/
def train_epoch {σ net dl loss opt : Type} (network : net)
    (dataloader : dl) (loss_fn : loss) (optimizer : opt)
    (device : String) (env : σ) : σ × PyVal :=
  let _ := network
  let _ := dataloader
  let _ := loss_fn
  let _ := optimizer
  let _ := device
  runBody notImplementedBody env

/-- `eval_batch(network, X_batch, Y_batch, loss_fn)`: body is
`NotImplemented`. -/
def eval_batch {σ net loss : Type} (network : net)
    (X_batch : List (List (List ℚ))) (Y_batch : List (List ℤ))
    (loss_fn : loss) (env : σ) : σ × PyVal :=
  let _ := network
  let _ := X_batch
  let _ := Y_batch
  let _ := loss_fn
  runBody notImplementedBody env

/-- `eval_epoch(network, dataloader, loss_fn, device)`: body is
`NotImplemented`. -/
def eval_epoch {σ net dl loss : Type} (network : net) (dataloader : dl)
    (loss_fn : loss) (device : String) (env : σ) : σ × PyVal :=
  let _ := network
  let _ := dataloader
  let _ := loss_fn
  let _ := device
  runBody notImplementedBody env

/-- `torch.nn.Linear(in_features, out_features, bias)`: a weight matrix
(rows are output coordinates) and an optional bias vector. -/
structure Linear where
  weight : List (List ℚ)
  bias : Option (List ℚ)

/-- Elementwise sum of two vectors (both operands in the notebook have the
hidden dimensionality). -/
def vecAdd (a b : List ℚ) : List ℚ := List.zipWith (· + ·) a b

/-- Dot product of a weight row with an input vector. -/
def dot (a b : List ℚ) : ℚ := (List.zipWith (· * ·) a b).sum

/-- Applying a `Linear` layer: `W v` plus the bias when one is present. -/
def Linear.apply (l : Linear) (v : List ℚ) : List ℚ :=
  let wv := l.weight.map (fun row => dot row v)
  match l.bias with
  | Option.none => wv
  | Option.some b => vecAdd wv b

/-- The state of a `mySRN` module after `__init__`: the two activation
callables, the device string and the three `torch.nn.Linear` layers. -/
structure mySRN where
  hidden_activation : List ℚ → List ℚ
  output_activation : List ℚ → List ℚ
  device : String
  x_to_h : Linear
  h_to_h : Linear
  h_to_y : Linear

/-- `mySRN.__init__`: stores the activations and the device and builds the
three layers — `x_to_h` without a bias (`bias=False`), `h_to_h` and
`h_to_y` with one. The layers' randomly sampled initial weights are passed
in explicitly. -/
def mySRN.mkInit (ha oa : List ℚ → List ℚ) (device : String)
    (wxh whh why : List (List ℚ)) (bh by' : List ℚ) : mySRN :=
  { hidden_activation := ha
    output_activation := oa
    device := device
    x_to_h := { weight := wxh, bias := Option.none }
    h_to_h := { weight := whh, bias := Option.some bh }
    h_to_y := { weight := why, bias := Option.some by' } }

/-- `mySRN.step(self, x, h)` as written in the notebook: the body reads the
module-level global `X` (passed here as `globalX`; `Option.none` models a
deleted global, on which Python raises `NameError`, returned as
`Option.none`) instead of the parameter `x`, which may therefore have any
type `α`. On success it returns the pair `(ht, yt)` with
`ht = hidden_activation(x_to_h(X) + h_to_h(h))` and
`yt = output_activation(h_to_y(ht))`. -/
def mySRN.step {α : Type} (self : mySRN) (globalX : Option (List ℚ))
    (x : α) (h : List ℚ) : Option (List ℚ × List ℚ) :=
  let _ := x
  match globalX with
  | Option.none => Option.none
  | Option.some gX =>
      let ht := self.hidden_activation
        (vecAdd (self.x_to_h.apply gX) (self.h_to_h.apply h))
      let yt := self.output_activation (self.h_to_y.apply ht)
      Option.some (ht, yt)

/-- The step function the notebook's own text specifies: accept the current
input `x` and previous hidden state `h` and produce
`ht = hidden_activation(x_to_h(x) + h_to_h(h))`,
`yt = output_activation(h_to_y(ht))`. Used to compare the written code
against its documented contract. -/
def mySRN.stepSpec (self : mySRN) (x h : List ℚ) : List ℚ × List ℚ :=
  let ht := self.hidden_activation
    (vecAdd (self.x_to_h.apply x) (self.h_to_h.apply h))
  let yt := self.output_activation (self.h_to_y.apply ht)
  (ht, yt)

/-- The three ways a Python call can end in this model: a normal return, an
uncaught exception, or no answer within the available fuel. -/
inductive Outcome (α : Type) where
  | ok : α → Outcome α
  | error : Outcome α
  | timeout : Outcome α
  deriving DecidableEq

/-- `mySRN.forward(self, X, h)` run on fuel. The body initialises
`yt = []`, then loops `while len(X) != 0`, each iteration calling
`self.step(X, h)` (passing the whole list as `x`, which `step` ignores)
and rebinding `ht, yt`; neither `X` nor `h` is ever modified. The second
component counts the `step` invocations performed. An exhausted fuel yields
`Outcome.timeout`; `X = []` yields the initial `yt`, the empty list. -/
def mySRN.forwardFuel (self : mySRN) (globalX : Option (List ℚ)) :
    Nat → List (List ℚ) → List ℚ → Outcome (List (List ℚ)) × Nat
  | 0, X, _ =>
    if X.isEmpty then (Outcome.ok [], 0) else (Outcome.timeout, 0)
  | Nat.succ n, X, h =>
    if X.isEmpty then (Outcome.ok [], 0)
    else
      match self.step globalX X h with
      | Option.none => (Outcome.error, 1)
      | Option.some _ =>
          let r := mySRN.forwardFuel self globalX n X h
          (r.1, r.2 + 1)

/-- One entry of the `correct_words` tensor of `accuracy` after the two
masked assignments: start from `1`, set to `0` where
`predictions != truth`, then set back to `1` where
`truth == ignore_idx`. -/
def correctWordsEntry (p t ignore_idx : ℤ) : ℚ :=
  if t = ignore_idx then 1 else if p ≠ t then 0 else 1

/-- `accuracy(predictions, truth, ignore_idx)` on 2-dimensional integer
tensors: build `correct_words` elementwise, sum it, count the positions
where `truth == ignore_idx`, and return
`(shape[0]*shape[1] - num_masked_words, num_correct_words - num_masked_words)`.
Sums are rational because `torch.ones` is a float tensor; the counts and
products are integers as in the code. -/
def accuracy (predictions truth : List (List ℤ)) (ignore_idx : ℤ) :
    ℚ × ℚ :=
  let correct_words : List (List ℚ) :=
    List.zipWith
      (fun prow trow =>
        List.zipWith (fun p t => correctWordsEntry p t ignore_idx) prow trow)
      predictions truth
  let num_correct_words : ℚ := (correct_words.map List.sum).sum
  let num_masked_words : ℕ :=
    (truth.map (fun trow => trow.countP (fun t => t == ignore_idx))).sum
  ((predictions.length : ℚ) * ((predictions.headD []).length : ℚ)
      - (num_masked_words : ℚ),
   num_correct_words - (num_masked_words : ℚ))

/-- Index of the first maximal element of a list (the reduction performed
by `argmax` over the last tensor dimension), as an integer label. -/
def argmaxIdx (l : List ℚ) : ℤ :=
  match l with
  | [] => 0
  | x :: xs =>
      let r := xs.foldl
        (fun (acc : ℤ × ℤ × ℚ) v =>
          let best := acc.2.2
          let cur := acc.1 + 1
          if best < v then (cur, cur, v) else (cur, acc.2.1, best))
        (0, 0, x)
      r.2.1

/-- `pred.argmax(dim=-1)` on a 3-dimensional tensor of shape
(seq_len, batch_size, classes): reduce the last dimension. -/
def argmaxLastDim (t : List (List (List ℚ))) : List (List ℤ) :=
  t.map (fun mat => mat.map argmaxIdx)

/-- `measure_accuracy(network, dataloader, device)`: iterate over the
batches, accumulate the correct and total counts that `accuracy` returns
on the argmax of the network's output against the labels with
`ignore_idx=0`, and return `correct/total`. The network is an arbitrary
function from an input batch to a 3-dimensional output tensor; moving a
tensor to the device does not change its value, so `device` is carried but
unused. -/
def measure_accuracy {α : Type} (network : α → List (List (List ℚ)))
    (dataloader : List (α × List (List ℤ))) (device : String) : ℚ :=
  let _ := device
  let acc := dataloader.foldl
    (fun (ct : ℚ × ℚ) b =>
      let pred := network b.1
      let r := accuracy (argmaxLastDim pred) b.2 0
      (ct.1 + r.2, ct.2 + r.1))
    (0, 0)
  acc.1 / acc.2

/-- The weights of a `torch.nn.RNN` with a single layer: input-to-hidden
and hidden-to-hidden matrices with their biases. -/
structure RNNWeights where
  w_ih : List (List ℚ)
  w_hh : List (List ℚ)
  b_ih : List ℚ
  b_hh : List ℚ

/-- One `torch.nn.RNN` cell application to one batch element:
`σ(W_ih x + b_ih + W_hh h + b_hh)` where `σ` is the configured
nonlinearity. -/
def rnnCell (σh : List ℚ → List ℚ) (w : RNNWeights) (x h : List ℚ) :
    List ℚ :=
  σh (vecAdd (Linear.apply { weight := w.w_ih, bias := Option.some w.b_ih } x)
             (Linear.apply { weight := w.w_hh, bias := Option.some w.b_hh } h))

/-- `torch.nn.RNN.forward` on an input of shape
(seq_len, batch_size, input_dim) with a zero (defaulted) initial hidden
state: scan the cell over the timesteps, carrying one hidden vector per
batch element, and stack the per-timestep hidden states. -/
def rnnForward (σh : List ℚ → List ℚ) (w : RNNWeights) (hiddenDim : ℕ)
    (X : List (List (List ℚ))) : List (List (List ℚ)) :=
  let step := fun (hs : List (List ℚ)) (xt : List (List ℚ)) =>
    List.zipWith (fun x h => rnnCell σh w x h) xt hs
  let batchSize := (X.headD []).length
  let h0 : List (List ℚ) := List.replicate batchSize (List.replicate hiddenDim 0)
  (X.foldl (fun (acc : List (List (List ℚ)) × List (List ℚ)) xt =>
      let ht := step acc.2 xt
      (acc.1 ++ [ht], ht))
    ([], h0)).1

/-- The state of a `fastSRN` module after `__init__`: only the three
dimensionalities, the two activation choices and the device. No layer and
no trainable parameter is stored. -/
structure fastSRN where
  input_size : ℕ
  hidden_size : ℕ
  output_size : ℕ
  hidden_activation : String
  output_activation : List ℚ → List ℚ
  device : String

/-- `fastSRN.__init__`: record the six constructor arguments and nothing
else. -/
def fastSRN.mkInit (input_dim hidden_dim output_dim : ℕ)
    (ha : String) (oa : List ℚ → List ℚ) (device : String) : fastSRN :=
  { input_size := input_dim
    hidden_size := hidden_dim
    output_size := output_dim
    hidden_activation := ha
    output_activation := oa
    device := device }

/-- `fastSRN.forward(self, X, h)`: construct a fresh `torch.nn.RNN` and a
fresh `h_to_y` `torch.nn.Linear` (their freshly sampled random weights are
the explicit arguments `freshRNN` and `freshLin`, and `σh` is the library
nonlinearity named by `self.hidden_activation`), run the RNN over `X`
(ignoring the `h` argument, which the body never uses), apply `h_to_y` to
every hidden state and the output activation on top. -/
def fastSRN.forward (self : fastSRN) (freshRNN : RNNWeights)
    (freshLin : Linear) (σh : List ℚ → List ℚ)
    (X : List (List (List ℚ))) : List (List (List ℚ)) :=
  let ht := rnnForward σh freshRNN self.hidden_size X
  ht.map (fun mat => mat.map (fun h => self.output_activation (freshLin.apply h)))

/-- The identity activation, a concrete `Callable` usable for both
activation slots. -/
def idAct : List ℚ → List ℚ := fun v => v

/-- A concrete 1-dimensional `mySRN`: identity activations, every weight
matrix `[[1]]` and every bias `[0]`. -/
def srn1 : mySRN := mySRN.mkInit idAct idAct "cpu" [[1]] [[1]] [[1]] [0] [0]

/-- A concrete `fastSRN` with all three dimensionalities 1 and identity
output activation. -/
def fsrn1 : fastSRN := fastSRN.mkInit 1 1 1 "tanh" idAct "cpu"

/-- Fresh RNN weights matching `srn1`: input-to-hidden `[[1]]`,
hidden-to-hidden `[[1]]`, both biases `[0]`. -/
def rnnW1 : RNNWeights :=
  { w_ih := [[1]], w_hh := [[1]], b_ih := [0], b_hh := [0] }

/-- A second draw of fresh RNN weights, differing from `rnnW1` only in the
input-to-hidden matrix. -/
def rnnW2 : RNNWeights :=
  { w_ih := [[2]], w_hh := [[1]], b_ih := [0], b_hh := [0] }

/-- A fresh `h_to_y` layer matching `srn1`: weight `[[1]]`, bias `[0]`. -/
def lin1 : Linear := { weight := [[1]], bias := Option.some [0] }

/-- On a non-empty input list the loop guard of `mySRN.forward` is true and
stays true, so the call only ever times out or raises. -/
theorem forwardFuel_cons_fst (self : mySRN) (gX : Option (List ℚ)) :
    ∀ (fuel : Nat) (a : List ℚ) (as : List (List ℚ)) (h : List ℚ),
      (mySRN.forwardFuel self gX fuel (a :: as) h).1 = Outcome.timeout ∨
      (mySRN.forwardFuel self gX fuel (a :: as) h).1 = Outcome.error := by
  intro fuel
  induction fuel with
  | zero => intro a as h; left; rfl
  | succ n ih =>
    intro a as h
    cases hs : mySRN.step self gX (a :: as) h with
    | none =>
      right
      simp [mySRN.forwardFuel, hs]
    | some p =>
      rcases ih a as h with ht | he
      · left
        simp [mySRN.forwardFuel, hs, ht]
      · right
        simp [mySRN.forwardFuel, hs, he]

/-- When the global `X` is bound, `step` never raises, so a non-empty input
list makes `mySRN.forward` time out for every fuel. -/
theorem forwardFuel_some_cons_timeout (self : mySRN) (g : List ℚ) :
    ∀ (fuel : Nat) (a : List ℚ) (as : List (List ℚ)) (h : List ℚ),
      (mySRN.forwardFuel self (Option.some g) fuel (a :: as) h).1 =
        Outcome.timeout := by
  intro fuel
  induction fuel with
  | zero => intro a as h; rfl
  | succ n ih =>
    intro a as h
    simp [mySRN.forwardFuel, mySRN.step, ih a as h]

/-- C8: the result of `mySRN.step` does not depend on its input parameter
`x` — for any two values `x1` and `x2` (of any types), `step(x1, h)` and
`step(x2, h)` in the same global environment produce identical results or
identical errors, because the body reads the module-level name `X`. -/
theorem mySRN_step_independent_of_x {α β : Type} (self : mySRN)
    (globalX : Option (List ℚ)) (x1 : α) (x2 : β) (h : List ℚ) :
    mySRN.step self globalX x1 h = mySRN.step self globalX x2 h := rfl

/-- C1: evaluated on a concrete 1-dimensional instance with identity
activations and unit weights, with the global `X` bound to `[5]`, the
written `step` applied to the input `x = [3]` and hidden state `[0]`
returns `([5], [5])` — the value obtained from the global `X` — whereas
the documented equation `ht = hidden_activation(x_to_h(x) + h_to_h(h))`
requires `([3], [3])`; the two disagree. -/
theorem mySRN_step_contradicts_documented_equation :
    mySRN.step srn1 (Option.some [5]) [(3 : ℚ)] [0] =
      Option.some ([5], [5]) ∧
    mySRN.stepSpec srn1 [3] [0] = ([3], [3]) ∧
    mySRN.step srn1 (Option.some [5]) [(3 : ℚ)] [0] ≠
      Option.some (mySRN.stepSpec srn1 [3] [0]) := by
  refine ⟨?_, ?_, ?_⟩ <;>
    norm_num [mySRN.step, mySRN.stepSpec, srn1, mySRN.mkInit, idAct,
      Linear.apply, dot, vecAdd]

/-- C2: evaluated at the failing input — the singleton input list `[[2]]`
with the global `X` bound and any amount of fuel — `mySRN.forward` never
returns: the loop guard `len(X) != 0` never becomes false, so the outcome
is a timeout for every fuel bound, never a list of outputs. -/
theorem mySRN_forward_never_returns_on_singleton :
    ∀ fuel : Nat,
      (mySRN.forwardFuel srn1 (Option.some [2]) fuel [[2]] [0]).1 =
        Outcome.timeout := by
  intro fuel
  exact forwardFuel_some_cons_timeout srn1 [2] fuel [2] [] [0]

/-- C10: `mySRN.forward` on the empty input list returns the empty list
having invoked `step` zero times, and on any non-empty input list it never
returns normally — for every fuel the outcome is a timeout or an uncaught
exception, never `Outcome.ok`. -/
theorem mySRN_forward_empty_vs_nonempty :
    (∀ (self : mySRN) (gX : Option (List ℚ)) (fuel : Nat) (h : List ℚ),
        mySRN.forwardFuel self gX fuel [] h = (Outcome.ok [], 0)) ∧
    (∀ (self : mySRN) (gX : Option (List ℚ)) (fuel : Nat)
        (X : List (List ℚ)) (h : List ℚ), X ≠ [] →
        (mySRN.forwardFuel self gX fuel X h).1 = Outcome.timeout ∨
        (mySRN.forwardFuel self gX fuel X h).1 = Outcome.error) := by
  constructor
  · intro self gX fuel h
    cases fuel <;> rfl
  · intro self gX fuel X h hX
    cases X with
    | nil => exact absurd rfl hX
    | cons a as => exact forwardFuel_cons_fst self gX fuel a as h

/-- Witness for C10: instantiating the non-empty case at the concrete
network `srn1`, a deleted global `X` and the input `[[1]]`. -/
theorem mySRN_forward_empty_vs_nonempty_witness :
    ([[(1 : ℚ)]] ≠ ([] : List (List ℚ))) ∧
    ((mySRN.forwardFuel srn1 Option.none 5 [[1]] [0]).1 = Outcome.timeout ∨
     (mySRN.forwardFuel srn1 Option.none 5 [[1]] [0]).1 = Outcome.error) :=
  ⟨by decide,
   mySRN_forward_empty_vs_nonempty.2 srn1 Option.none 5 [[1]] [0]
     (by decide)⟩

/-- C3: with matching dimensionalities (all 1), matching weights (`rnnW1`
and `lin1` duplicate the unit weights and zero biases of `srn1`) and
matching activations (identity on both sides), `fastSRN.forward` on the
stacked tensor `[[[1]]]` of shape (1, 1, 1) returns `[[[1]]]`, while
`mySRN.forward` on the corresponding per-timestep list `[[1]]` with zero
initial hidden state never returns for any fuel — so the two
implementations do not compute the same outputs timestep by timestep. -/
theorem fastSRN_mySRN_disagree :
    fastSRN.forward fsrn1 rnnW1 lin1 idAct [[[1]]] = [[[1]]] ∧
    (∀ fuel : Nat,
        (mySRN.forwardFuel srn1 (Option.some [1]) fuel [[1]] [0]).1 =
          Outcome.timeout) := by
  constructor
  · norm_num [fastSRN.forward, fsrn1, fastSRN.mkInit, rnnForward, rnnCell,
      rnnW1, lin1, idAct, Linear.apply, dot, vecAdd, List.replicate]
  · intro fuel
    exact forwardFuel_some_cons_timeout srn1 [1] fuel [1] [] [0]

/-- C6: every placeholder body evaluates only the constant
`NotImplemented`, leaves the ambient state unchanged, and the call returns
`None` — for `UnevenLengthDataset.__init__`, `__len__`, `__getitem__`,
`pad_batch`, `train_batch`, `train_epoch`, `eval_batch` and
`eval_epoch`. -/
theorem placeholders_evaluate_to_none :
    (∀ (σ : Type) (X : List (List (List ℚ))) (Y : List (List ℤ)) (env : σ),
        UnevenLengthDataset.init X Y env = (env, PyVal.none)) ∧
    (∀ (σ : Type) (env : σ),
        UnevenLengthDataset.len env = (env, PyVal.none)) ∧
    (∀ (σ : Type) (idx : ℤ) (env : σ),
        UnevenLengthDataset.getitem idx env = (env, PyVal.none)) ∧
    (∀ (σ : Type) (batch : List (List (List ℚ) × List ℤ)) (env : σ),
        pad_batch batch env = (env, PyVal.none)) ∧
    (∀ (σ net loss opt : Type) (network : net) (Xb : List (List (List ℚ)))
        (Yb : List (List ℤ)) (lf : loss) (o : opt) (env : σ),
        train_batch network Xb Yb lf o env = (env, PyVal.none)) ∧
    (∀ (σ net dl loss opt : Type) (network : net) (dlo : dl) (lf : loss)
        (o : opt) (dev : String) (env : σ),
        train_epoch network dlo lf o dev env = (env, PyVal.none)) ∧
    (∀ (σ net loss : Type) (network : net) (Xb : List (List (List ℚ)))
        (Yb : List (List ℤ)) (lf : loss) (env : σ),
        eval_batch network Xb Yb lf env = (env, PyVal.none)) ∧
    (∀ (σ net dl loss : Type) (network : net) (dlo : dl) (lf : loss)
        (dev : String) (env : σ),
        eval_epoch network dlo lf dev env = (env, PyVal.none)) := by
  refine ⟨?_, ?_, ?_, ?_, ?_, ?_, ?_, ?_⟩ <;> intros <;> rfl

/-- Counterexample for C5: on the concrete one-element batch
`[([[1]], [1])]` the written `pad_batch` returns `None`, not the padded
pair `(X, Y)` with `X = [[[1]]]` of shape (1, 1, 1) and `Y = [[1]]` that
the claim requires. -/
theorem pad_batch_claim_counterexample :
    (pad_batch [([[1]], [1])] (0 : ℤ)).2 = PyVal.none ∧
    (pad_batch [([[1]], [1])] (0 : ℤ)).2 ≠
      PyVal.tuple (PyVal.tensor3Q [[[1]]]) (PyVal.tensor2Z [[1]]) := by
  exact ⟨rfl, by decide⟩

/-- C5 (amended): `pad_batch` is an unfinished placeholder — for every
batch it evaluates the constant `NotImplemented` and the call returns
`None` (with the ambient state unchanged) instead of a padded pair of
rectangular tensors. -/
theorem pad_batch_is_placeholder (σ : Type)
    (batch : List (List (List ℚ) × List ℤ)) (env : σ) :
    pad_batch batch env = (env, PyVal.none) := rfl

/-- C9: `fastSRN.__init__` stores exactly the three dimensionalities, the
two activation choices and the device (no layer, no trainable parameter);
`fastSRN.forward` reads none of the stored fields except `hidden_size` and
`output_activation` — in particular no registered parameter, since none
exists — and its output is driven by the freshly sampled weights of the
`torch.nn.RNN` and `Linear` it constructs on each call, so two calls on
the same input and module state can return different outputs. -/
theorem fastSRN_forward_fresh_parameters :
    (∀ (di dh dOut : ℕ) (ha : String) (oa : List ℚ → List ℚ)
        (dev : String),
        fastSRN.mkInit di dh dOut ha oa dev =
          { input_size := di, hidden_size := dh, output_size := dOut,
            hidden_activation := ha, output_activation := oa,
            device := dev }) ∧
    (∀ (di di2 dOut dOut2 dh : ℕ) (ha ha2 dev dev2 : String)
        (oa : List ℚ → List ℚ) (w : RNNWeights) (l : Linear)
        (σh : List ℚ → List ℚ) (X : List (List (List ℚ))),
        fastSRN.forward (fastSRN.mkInit di dh dOut ha oa dev) w l σh X =
        fastSRN.forward (fastSRN.mkInit di2 dh dOut2 ha2 oa dev2) w l σh X) ∧
    (∃ (s : fastSRN) (w1 w2 : RNNWeights) (l : Linear)
        (σh : List ℚ → List ℚ) (X : List (List (List ℚ))),
        fastSRN.forward s w1 l σh X ≠ fastSRN.forward s w2 l σh X) := by
  refine ⟨fun _ _ _ _ _ _ => rfl,
          fun _ _ _ _ _ _ _ _ _ _ _ _ _ _ => rfl,
          ⟨fsrn1, rnnW1, rnnW2, lin1, idAct, [[[1]]], by
            norm_num [fastSRN.forward, fsrn1, fastSRN.mkInit, rnnForward,
              rnnCell, rnnW1, rnnW2, lin1, idAct, Linear.apply, dot, vecAdd,
              List.replicate]⟩⟩

/-- Counting the failures of a predicate and counting its successes
together exhaust a list. -/
theorem countP_not_add (p : ℤ → Bool) (l : List ℤ) :
    l.countP (fun a => !(p a)) + l.countP p = l.length := by
  induction l with
  | nil => rfl
  | cons a l ih =>
    by_cases h : p a <;> simp [List.countP_cons, h] <;> omega

/-- A list of rows of common length `d` has `length * d` entries. -/
theorem sum_map_length_const (d : ℕ) :
    ∀ (T : List (List ℤ)), (∀ r ∈ T, r.length = d) →
      (T.map List.length).sum = T.length * d := by
  intro T
  induction T with
  | nil => intro _; simp
  | cons t T ih =>
    intro h
    simp only [List.map_cons, List.sum_cons, List.length_cons]
    rw [h t (by simp), ih (fun r hr => h r (by simp [hr]))]
    ring

/-- The sum of one row of `correct_words` counts the masked positions plus
the correctly predicted unmasked positions. -/
theorem correctWords_row_sum (i : ℤ) :
    ∀ (p t : List ℤ), p.length = t.length →
      (List.zipWith (fun a b => correctWordsEntry a b i) p t).sum =
        ((t.countP (fun b => b == i) : ℕ) : ℚ) +
        (((p.zip t).countP (fun ab => ab.1 == ab.2 && !(ab.2 == i)) : ℕ) : ℚ) := by
  intro p
  induction p with
  | nil =>
    intro t ht
    cases t with
    | nil => simp
    | cons b t' => simp at ht
  | cons a p ih =>
    intro t ht
    cases t with
    | nil => simp at ht
    | cons b t' =>
      have hlen : p.length = t'.length := by simpa using ht
      have hrec := ih t' hlen
      simp only [List.zipWith_cons_cons, List.sum_cons, List.zip_cons_cons,
        List.countP_cons, hrec]
      by_cases hb : b = i
      · by_cases hab : a = b <;>
          simp [correctWordsEntry, hb, hab] <;> push_cast <;> ring
      · by_cases hab : a = b <;>
          simp [correctWordsEntry, hb, hab] <;> push_cast <;> ring

/-- The full sum of `correct_words` over equal-shape rectangular tensors
counts the masked positions plus the correctly predicted unmasked
positions, stated over the flattened tensors. -/
theorem correctWords_matrix_sum (i : ℤ) (d : ℕ) :
    ∀ (P T : List (List ℤ)), P.length = T.length →
      (∀ r ∈ P, r.length = d) → (∀ r ∈ T, r.length = d) →
      ((List.zipWith
          (fun prow trow =>
            List.zipWith (fun p t => correctWordsEntry p t i) prow trow)
          P T).map List.sum).sum =
        ((T.flatten.countP (fun b => b == i) : ℕ) : ℚ) +
        (((P.flatten.zip T.flatten).countP
            (fun ab => ab.1 == ab.2 && !(ab.2 == i)) : ℕ) : ℚ) := by
  intro P
  induction P with
  | nil =>
    intro T hlen hP hT
    cases T with
    | nil => simp
    | cons t T => simp at hlen
  | cons p P ih =>
    intro T hlen hP hT
    cases T with
    | nil => simp at hlen
    | cons t T' =>
      have hlen' : P.length = T'.length := by simpa using hlen
      have hpd : p.length = d := hP p (by simp)
      have htd : t.length = d := hT t (by simp)
      have hrow := correctWords_row_sum i p t (by rw [hpd, htd])
      have hrec := ih T' hlen' (fun r hr => hP r (by simp [hr]))
        (fun r hr => hT r (by simp [hr]))
      have hzip : (p ++ P.flatten).zip (t ++ T'.flatten) =
          p.zip t ++ P.flatten.zip T'.flatten :=
        List.zip_append (by rw [hpd, htd])
      simp only [List.zipWith_cons_cons, List.map_cons, List.sum_cons,
        List.flatten_cons, hzip, List.countP_append, hrow, hrec]
      push_cast
      ring

/-- C4: on equal-shape rectangular integer tensors (`P.length = T.length`,
all rows of length `d`), `accuracy(P, T, i)` returns the pair (number of
positions where the truth differs from the ignore index, number of
positions where the prediction equals the truth and the truth differs from
the ignore index). -/
theorem accuracy_counts (P T : List (List ℤ)) (i : ℤ) (d : ℕ)
    (hlen : P.length = T.length)
    (hP : ∀ r ∈ P, r.length = d)
    (hT : ∀ r ∈ T, r.length = d) :
    accuracy P T i =
      (((T.flatten.countP (fun b => !(b == i)) : ℕ) : ℚ),
       (((P.flatten.zip T.flatten).countP
           (fun ab => ab.1 == ab.2 && !(ab.2 == i)) : ℕ) : ℚ)) := by
  have hmask : (T.map (fun trow => trow.countP (fun t => t == i))).sum
      = T.flatten.countP (fun b => b == i) := (List.countP_flatten _ T).symm
  have hflat_len : T.flatten.length = T.length * d := by
    rw [List.length_flatten]; exact sum_map_length_const d T hT
  have hnot : T.flatten.countP (fun b => !(b == i)) +
      T.flatten.countP (fun b => b == i) = T.length * d := by
    rw [countP_not_add]; exact hflat_len
  have hhead : (P.length : ℚ) * ((P.headD []).length : ℚ) =
      (T.length : ℚ) * (d : ℚ) := by
    cases P with
    | nil =>
      cases T with
      | nil => simp
      | cons t T => simp at hlen
    | cons p P' =>
      have h1 : (p :: P').length = T.length := hlen
      have h2 : p.length = d := hP p (by simp)
      rw [List.headD_cons, h1, h2]
  have hsum := correctWords_matrix_sum i d P T hlen hP hT
  simp only [accuracy, hmask, hsum, Prod.mk.injEq]
  constructor
  · rw [hhead]
    have := congrArg (fun n : ℕ => (n : ℚ)) hnot
    push_cast at this ⊢
    linarith
  · ring

/-- Witness for C4: on the concrete tensors `P = [[1,2],[3,4]]`,
`T = [[1,0],[0,4]]` with ignore index 0 there are two unmasked positions
and two correct unmasked predictions. -/
theorem accuracy_counts_witness :
    accuracy [[1, 2], [3, 4]] [[1, 0], [0, 4]] 0 = (2, 2) := by
  have h := accuracy_counts [[1, 2], [3, 4]] [[1, 0], [0, 4]] 0 2
    (by decide) (by decide) (by decide)
  rw [h]
  norm_num

/-- The accumulator loop of `measure_accuracy` computes the componentwise
sums over the batches. -/
theorem measure_accuracy_foldl {α : Type} (f g : α → ℚ) :
    ∀ (l : List α) (c t : ℚ),
      l.foldl (fun (ct : ℚ × ℚ) b => (ct.1 + f b, ct.2 + g b)) (c, t) =
        (c + (l.map f).sum, t + (l.map g).sum) := by
  intro l
  induction l with
  | nil => intro c t; simp
  | cons a l ih =>
    intro c t
    simp only [List.foldl_cons, List.map_cons, List.sum_cons, ih,
      Prod.mk.injEq]
    exact ⟨by ring, by ring⟩

/-- C7: `measure_accuracy` returns the micro-averaged accuracy — the sum
over all batches of the correct counts that `accuracy` yields on the
argmax (over the last dimension) of the network's output against the true
labels with ignore index 0, divided by the sum over all batches of the
total counts. -/
theorem measure_accuracy_micro_average {α : Type}
    (network : α → List (List (List ℚ)))
    (dataloader : List (α × List (List ℤ))) (device : String) :
    measure_accuracy network dataloader device =
      ((dataloader.map
          (fun b => (accuracy (argmaxLastDim (network b.1)) b.2 0).2)).sum) /
      ((dataloader.map
          (fun b => (accuracy (argmaxLastDim (network b.1)) b.2 0).1)).sum) := by
  have h := measure_accuracy_foldl
    (fun b : α × List (List ℤ) =>
      (accuracy (argmaxLastDim (network b.1)) b.2 0).2)
    (fun b : α × List (List ℤ) =>
      (accuracy (argmaxLastDim (network b.1)) b.2 0).1)
    dataloader 0 0
  simp only [measure_accuracy, h, zero_add]
